import Mathlib

/-!
# Card resolver and price aggregator: a shallow embedding

This file embeds the two core components of the Pokemon card price
checker backend:

* `get_card_details` — the card resolver of
  `backend/services/card_service.py` (`CardService.get_card_details`).
  The catalog HTTP call is modelled as an explicit
  `Except Unit (List RawCard)` argument: `.error ()` stands for any
  transport error or timeout, `.ok cards` for a successful response
  carrying the candidate list.
* `get_prices` — the price aggregator of
  `backend/services/price_service.py` (`PriceService.get_prices`),
  together with its helpers `extract_tcgplayer_prices`,
  `get_tcgplayer_prices`, `get_ebay_prices`, `get_cardmarket_prices`
  and `determine_trend`.  Each mock adapter's random base price (and
  its possible failure, caught by the adapter's `try/except`) is
  modelled as an explicit `Except Unit ℚ` argument.

Python `Optional[str]` values become `Option String`; Python dict
truthiness of optional strings (`None` and `""` are falsy) is
`strTruthy`.  Floats are modelled as `ℚ`; `round(x, 2)` is `round2`.
All string manipulation is done with total functions over `List Char`.
-/

namespace PokePrice

/-! ## String helpers modelling the Python primitives -/

/-- Python `s.lower()` (ASCII case folding, as used on set names). -/
def lowerStr (s : String) : String :=
  String.mk (s.data.map Char.toLower)

/-- Python `s.replace(" ", "")`. -/
def stripSpaces (s : String) : String :=
  String.mk (s.data.filter (fun c => c ≠ ' '))

/-- Python `s.replace(" ", "+")`, used to build search URLs. -/
def plusForSpaces (s : String) : String :=
  String.mk (s.data.map (fun c => if c = ' ' then '+' else c))

/-- Python `s[:n]`. -/
def takeStr (n : Nat) (s : String) : String :=
  String.mk (s.data.take n)

/-- Python `s.split("/")[0]`: the characters before the first `'/'`. -/
def beforeSlash (s : String) : String :=
  String.mk (s.data.takeWhile (fun c => c ≠ '/'))

/-- Python `s.strip()`. -/
def trimStr (s : String) : String :=
  String.mk (((s.data.dropWhile Char.isWhitespace).reverse.dropWhile
    Char.isWhitespace).reverse)

/-- Test whether `n` is an initial segment of `h`. -/
def isPref : List Char → List Char → Bool
  | [], _ => true
  | _ :: _, [] => false
  | a :: as, b :: bs => a = b && isPref as bs

/-- Test whether `n` occurs contiguously in `h`
(Python `n in h` on strings). -/
def subList (n : List Char) : List Char → Bool
  | [] => n.isEmpty
  | c :: cs => isPref n (c :: cs) || subList n cs

/-- Python substring test `needle in haystack`. -/
def containsStr (needle haystack : String) : Bool :=
  subList needle.data haystack.data

/-- Python truthiness of an `Optional[str]`: `None` and `""` are falsy. -/
def strTruthy : Option String → Bool
  | some s => s ≠ ""
  | none => false

/-- Python `o or d` on an `Optional[str]`. -/
def strOr (o : Option String) (d : String) : String :=
  match o with
  | some s => if s = "" then d else s
  | none => d

/-- Floor of a rational, written so that the kernel can evaluate it. -/
def floorQ (q : ℚ) : ℤ := q.num / (q.den : ℤ)

/-- Python `round(q, 2)` (modelled as round-half-up on rationals). -/
def round2 (q : ℚ) : ℚ :=
  ((floorQ (q * 100 + 1 / 2) : ℤ) : ℚ) / 100

/-! ## Data model -/

/-- One TCGPlayer price variant block, e.g. `{"market": 12.34, ...}`.
`market = none` models both an absent `"market"` key and a `null`
value (the code treats them alike via `"market" in v and v["market"]`;
a present value of `0` is also falsy and is kept as `some 0`). -/
structure TcgVariant where
  market : Option ℚ
deriving DecidableEq

/-- The `"prices"` sub-dictionary of the catalog's `tcgplayer` block. -/
structure TcgPrices where
  normal : Option TcgVariant
  holofoil : Option TcgVariant
  reverseHolofoil : Option TcgVariant
  firstEdition : Option TcgVariant
deriving DecidableEq

/-- The catalog's `tcgplayer` block: listing URL and per-variant prices. -/
structure TcgData where
  url : Option String
  prices : Option TcgPrices
deriving DecidableEq

/-- The `"set"` sub-dictionary of a raw catalog card. -/
structure RawSet where
  name : Option String
  id : Option String
  series : Option String
deriving DecidableEq

/-- A raw candidate returned by the catalog search
(the fields of the Pokemon TCG API card object that the code reads). -/
structure RawCard where
  id : Option String
  name : Option String
  rset : Option RawSet
  number : Option String
  rarity : Option String
  imageLarge : Option String
  imageSmall : Option String
  artist : Option String
  hp : Option String
  types : List String
  tcgplayer : Option TcgData
  cardmarketUrl : Option String
deriving DecidableEq

/-- The dictionary returned by `CardService.get_card_details`. -/
structure CardDetails where
  id : Option String
  name : Option String
  set : Option String
  number : Option String
  rarity : Option String
  image_url : Option String
  image_url_small : Option String
  set_id : Option String
  set_series : Option String
  artist : Option String
  hp : Option String
  types : List String
  tcgplayer_url : Option String
  cardmarket_url : Option String
  tcgplayer : Option TcgData
deriving DecidableEq

/-! ## Card resolver (`card_service.py`) -/

/-- Python `card.get("set", {}).get("name", "")`. -/
def cardSetStr (c : RawCard) : String :=
  match c.rset with
  | some s => s.name.getD ""
  | none => ""

/-- Python `card_number.split("/")[0].strip()`: the bare number token
used for matching. -/
def normalizeNumber (n : String) : String :=
  trimStr (beforeSlash n)

/-- The per-candidate match test of the resolver loop
(lines 64–77 of `card_service.py`): the set name must contain the
requested set name case-insensitively (skipped when no set name was
given) and the card number must contain the normalized number token
(skipped when no number was given). -/
def matchesQuery (set_name card_number : Option String) (c : RawCard) : Bool :=
  let card_set := cardSetStr c
  let card_num := c.number.getD ""
  let set_match := !strTruthy set_name ||
    containsStr (lowerStr (set_name.getD "")) (lowerStr card_set)
  let num_match := !strTruthy card_number ||
    containsStr (normalizeNumber (card_number.getD "")) card_num
  set_match && num_match

/-- The dictionary built for a matched candidate (lines 79–95). -/
def toDictMatched (c : RawCard) : CardDetails :=
  { id := c.id
    name := c.name
    set := some (cardSetStr c)
    number := some (c.number.getD "")
    rarity := c.rarity
    image_url := c.imageLarge
    image_url_small := c.imageSmall
    set_id := c.rset.bind (·.id)
    set_series := c.rset.bind (·.series)
    artist := c.artist
    hp := c.hp
    types := c.types
    tcgplayer_url := c.tcgplayer.bind (·.url)
    cardmarket_url := c.cardmarketUrl
    tcgplayer := some (c.tcgplayer.getD ⟨none, none⟩) }

/-- The dictionary built for the first candidate when no candidate
matches (lines 100–116); it differs from `toDictMatched` only in the
`set` and `number` fields, which keep no `""` default. -/
def toDictFirst (c : RawCard) : CardDetails :=
  { toDictMatched c with
    set := c.rset.bind (·.name)
    number := c.number }

/-- The synthesized set prefix of the mock id:
`set_name.lower().replace(" ", "")[:4]`, or `"unknown"` when the set
name is absent or empty. -/
def mockSetPref (set_name : Option String) : String :=
  if strTruthy set_name then takeStr 4 (stripSpaces (lowerStr (set_name.getD "")))
  else "unknown"

/-- The number token of the mock id:
`card_number.split("/")[0]` (no trimming), or `"001"` when absent. -/
def mockNumTok (card_number : Option String) : String :=
  if strTruthy card_number then beforeSlash (card_number.getD "") else "001"

/-- The synthetic fallback record (lines 127–154 of `card_service.py`). -/
def mockCard (card_name : String) (set_name card_number : Option String) :
    CardDetails :=
  { id := some (mockSetPref set_name ++ "-" ++ mockNumTok card_number)
    name := some card_name
    set := some (strOr set_name "Unknown Set")
    number := some (strOr card_number "001")
    rarity := some "Common"
    image_url := none
    image_url_small := none
    set_id := some (mockSetPref set_name)
    set_series := some "Mock Series"
    artist := some "Unknown Artist"
    hp := some "50"
    types := ["Grass"]
    tcgplayer_url := none
    cardmarket_url := none
    tcgplayer := none }

/-- The resolver `CardService.get_card_details`: search the catalog by name, pick
the first candidate passing `matchesQuery`, fall back to the first
candidate, and degrade to `mockCard` when the catalog errors out or
returns no candidates.  The function is total: no path raises. -/
def get_card_details (card_name : String) (set_name card_number : Option String)
    (catalog : Except Unit (List RawCard)) : CardDetails :=
  match catalog with
  | .error _ => mockCard card_name set_name card_number
  | .ok cards =>
    match cards with
    | [] => mockCard card_name set_name card_number
    | c0 :: rest =>
      match (c0 :: rest).find? (matchesQuery set_name card_number) with
      | some c => toDictMatched c
      | none => toDictFirst c0

/-! ## Price aggregator (`price_service.py`) -/

/-- One normalized price observation (the dictionaries appended to
`prices` throughout `price_service.py`). -/
structure PriceObs where
  source : String
  price : ℚ
  currency : String
  condition : String
  url : String
  in_stock : Bool
  seller : String
deriving DecidableEq

/-- The aggregated report returned by `PriceService.get_prices`. -/
structure PriceReport where
  prices : List PriceObs
  market_price : Option ℚ
  trend : String
  last_updated : String
  total_sources : Nat
deriving DecidableEq

/-- The fallback listing URL `"https://www.tcgplayer.com"`. -/
def tcgDefaultUrl : String := "https://www.tcgplayer.com"

/-- One variant block of `extract_tcgplayer_prices`
(e.g. lines 96–107 of `price_service.py`): a single observation when
the variant carries a truthy `market` value, nothing otherwise. -/
def variantObs (cond url : String) (v : Option TcgVariant) : List PriceObs :=
  match v with
  | some tv =>
    match tv.market with
    | some m =>
      if m = 0 then []
      else [⟨"TCGPlayer", round2 m, "USD", cond, url, true, "TCGPlayer Market"⟩]
    | none => []
  | none => []

/-- Embedding of `PriceService._extract_tcgplayer_prices` (lines 76–156): direct
catalog pricing, one observation per populated variant, in the fixed
order normal, holofoil, reverse holofoil, first edition. -/
def extract_tcgplayer_prices (cd : CardDetails) : List PriceObs :=
  match cd.tcgplayer with
  | none => []
  | some t =>
    match t.prices with
    | none => []
    | some pr =>
      let u := strOr t.url tcgDefaultUrl
      variantObs "Near Mint" u pr.normal ++
      variantObs "Near Mint (Holofoil)" u pr.holofoil ++
      variantObs "Near Mint (Reverse Holo)" u pr.reverseHolofoil ++
      variantObs "Near Mint (1st Edition)" u pr.firstEdition

/-- Embedding of `PriceService._get_tcgplayer_prices` (lines 158–193): the mock
primary-marketplace adapter.  `base` models the random base price
`random.uniform(5.0, 50.0)`; `.error ()` models an adapter failure
caught by the adapter's `try/except`, which yields `[]`. -/
def get_tcgplayer_prices (card_name : String) (base : Except Unit ℚ) :
    List PriceObs :=
  match base with
  | .error _ => []
  | .ok b =>
    let url := "https://www.tcgplayer.com/search/pokemon/product?q=" ++
      plusForSpaces card_name
    [⟨"TCGPlayer", round2 b, "USD", "Near Mint", url, true, "TCGPlayer Market"⟩,
     ⟨"TCGPlayer", round2 (b * (85 / 100)), "USD", "Lightly Played", url, true,
       "TCGPlayer Market"⟩]

/-- Embedding of `PriceService._get_ebay_prices` (lines 195–234): the mock
auction-marketplace adapter (`base` models `random.uniform(8.0, 55.0)`). -/
def get_ebay_prices (card_name set_name : String) (base : Except Unit ℚ) :
    List PriceObs :=
  match base with
  | .error _ => []
  | .ok b =>
    let ebay_url := "https://www.ebay.com/sch/i.html?_nkw=" ++
      plusForSpaces (card_name ++ " " ++ set_name ++ " Pokemon Card")
    [⟨"eBay", round2 b, "USD", "Near Mint", ebay_url, true, "Various Sellers"⟩,
     ⟨"eBay", round2 (b * (115 / 100)), "USD", "Mint/PSA Graded",
       ebay_url ++ "&LH_PrefLoc=1", true, "Various Sellers"⟩]

/-- Embedding of `PriceService._get_cardmarket_prices` (lines 236–262): the mock
regional-marketplace adapter (`base` models `random.uniform(6.0, 45.0)`). -/
def get_cardmarket_prices (card_name : String) (base : Except Unit ℚ) :
    List PriceObs :=
  match base with
  | .error _ => []
  | .ok b =>
    let url := "https://www.cardmarket.com/en/Pokemon/Products/Search?searchString=" ++
      plusForSpaces card_name
    [⟨"Cardmarket", round2 b, "USD", "Near Mint", url, true, "Cardmarket Sellers"⟩]

/-- The direct-catalog contribution of `get_prices` (lines 43–45):
extraction runs only when `card_details` is present and its
`tcgplayer_url` is truthy. -/
def directPrices (card_details : Option CardDetails) : List PriceObs :=
  match card_details with
  | some cd => if strTruthy cd.tcgplayer_url then extract_tcgplayer_prices cd else []
  | none => []

/-- Python `max(l)` for the nonempty list `h :: t`. -/
def listMax (h : ℚ) (t : List ℚ) : ℚ := t.foldl max h

/-- Python `min(l)` for the nonempty list `h :: t`. -/
def listMin (h : ℚ) (t : List ℚ) : ℚ := t.foldl min h

/-- The final classification of `_determine_trend` (lines 281–288),
shared by the embedding of the code and the statement of the spec's
heuristic: volatile above the 0.3 variation threshold, else rising /
falling / stable by comparing the last price with the extremes. -/
def classify (variation mx mn lastP : ℚ) : String :=
  if variation > 3 / 10 then "volatile"
  else if lastP = mx then "rising"
  else if lastP = mn then "falling"
  else "stable"

/-- Embedding of `PriceService._determine_trend` (lines 264–288).  The code guards
the division by `avg_price > 0` (not `avg_price != 0`). -/
def determine_trend : List PriceObs → String
  | [] => "unknown"
  | p :: ps =>
    let all := p.price :: ps.map (·.price)
    let avg := all.sum / (all.length : ℚ)
    let mx := listMax p.price (ps.map (·.price))
    let mn := listMin p.price (ps.map (·.price))
    classify (if avg > 0 then (mx - mn) / avg else 0) mx mn (all.getLastD 0)

/-- Embedding of `PriceService.get_prices` (lines 21–74): direct catalog prices when
available, otherwise the three mock adapters concatenated in invocation
order; then mean market price, trend and source count.  The function is
total: no path raises.  `now` models `datetime.now().isoformat()`. -/
def get_prices (card_name _card_id set_name : String)
    (card_details : Option CardDetails) (tcgBase ebayBase cmBase : Except Unit ℚ)
    (now : String) : PriceReport :=
  let direct := directPrices card_details
  let prices :=
    if direct.isEmpty then
      get_tcgplayer_prices card_name tcgBase ++
      get_ebay_prices card_name set_name ebayBase ++
      get_cardmarket_prices card_name cmBase
    else direct
  { prices := prices
    market_price :=
      if prices.isEmpty then none
      else some (round2 ((prices.map (·.price)).sum / (prices.length : ℚ)))
    trend := determine_trend prices
    last_updated := now
    total_sources := prices.length }

/-! ## Spec-side definitions

These restate, in the words of the specification, the formulas the
code is claimed to implement; the theorems below compare them with the
embedded code. -/

/-- The trend heuristic exactly as the spec words it: `unknown` on the
empty list; otherwise `variation = (max - min) / mean`, treated as `0`
when the mean is `0`, then the shared `classify` cascade. -/
def trendSpec : List ℚ → String
  | [] => "unknown"
  | h :: t =>
    let mean := (h :: t).sum / ((h :: t).length : ℚ)
    let mx := listMax h t
    let mn := listMin h t
    classify (if mean = 0 then 0 else (mx - mn) / mean) mx mn ((h :: t).getLastD 0)

/-- A variant is populated when its `market` value is present and
nonzero (a missing key, `null` or `0` does not count). -/
def isPopulated : Option TcgVariant → Bool
  | some tv =>
    match tv.market with
    | some m => decide (m ≠ 0)
    | none => false
  | none => false

/-- The populated market values of a variant, in extraction order. -/
def marketVals : Option TcgVariant → List ℚ
  | some tv =>
    match tv.market with
    | some m => if m = 0 then [] else [m]
    | none => []
  | none => []

/-- All populated market values of a card's direct catalog pricing. -/
def cdMarkets (cd : CardDetails) : List ℚ :=
  match cd.tcgplayer with
  | some t =>
    match t.prices with
    | some pr =>
      marketVals pr.normal ++ marketVals pr.holofoil ++
      marketVals pr.reverseHolofoil ++ marketVals pr.firstEdition
    | none => []
  | none => []

/-- The populated market values behind an optional card-details record. -/
def optMarkets : Option CardDetails → List ℚ
  | some cd => cdMarkets cd
  | none => []

/-- Lower bound hypothesis on an adapter's random base price:
holds vacuously when the adapter fails. -/
def baseGE (lo : ℚ) : Except Unit ℚ → Prop
  | .ok b => lo ≤ b
  | .error _ => True

/-- Well-formedness of a catalog response: every returned candidate
carries a non-empty id (the catalog's documented guarantee). -/
def idsOK : Except Unit (List RawCard) → Prop
  | .ok cards => ∀ c ∈ cards, c.id.getD "" ≠ ""
  | .error _ => True

/-! ## Helper lemmas -/

lemma floorQ_eq (q : ℚ) : floorQ q = Int.floor q := by
  rw [Rat.floor_def]; rfl

lemma le_listMax (h : ℚ) (t : List ℚ) : h ≤ listMax h t := by
  induction t generalizing h with
  | nil => exact le_refl h
  | cons x xs ih => exact le_trans (le_max_left h x) (ih (max h x))

lemma listMin_le (h : ℚ) (t : List ℚ) : listMin h t ≤ h := by
  induction t generalizing h with
  | nil => exact le_refl h
  | cons x xs ih => exact le_trans (ih (min h x)) (min_le_left h x)

lemma listMin_le_listMax (h : ℚ) (t : List ℚ) : listMin h t ≤ listMax h t :=
  le_trans (listMin_le h t) (le_listMax h t)

lemma classify_congr (v1 v2 mx mn lp : ℚ) (h : v1 > 3 / 10 ↔ v2 > 3 / 10) :
    classify v1 mx mn lp = classify v2 mx mn lp := by
  unfold classify
  by_cases h1 : v1 > 3 / 10
  · rw [if_pos h1, if_pos (h.mp h1)]
  · rw [if_neg h1, if_neg (fun hh => h1 (h.mpr hh))]

lemma variation_iff (avg mx mn : ℚ) (hle : mn ≤ mx) :
    ((if avg > 0 then (mx - mn) / avg else 0) > 3 / 10 ↔
      (if avg = 0 then 0 else (mx - mn) / avg) > 3 / 10) := by
  rcases lt_trichotomy avg 0 with hneg | hz | hpos
  · rw [if_neg (by linarith : ¬ avg > 0), if_neg (ne_of_lt hneg)]
    have hdiv : (mx - mn) / avg ≤ 0 :=
      div_nonpos_of_nonneg_of_nonpos (by linarith) (le_of_lt hneg)
    constructor
    · intro h; norm_num at h
    · intro h; exfalso; linarith
  · rw [if_neg (by rw [hz]; norm_num : ¬ avg > 0), if_pos hz]
  · rw [if_pos hpos, if_neg (ne_of_gt hpos)]

/-! ## Claim theorems -/

/-- C3: for every observation list the code's trend
(`_determine_trend`) is exactly the spec's heuristic: with
`variation = (max - min) / mean` (`0` when the mean is `0`), the trend
is `volatile` when `variation > 0.3`, else `rising` when the last
price equals the maximum, else `falling` when it equals the minimum,
else `stable`; and `unknown` on the empty list. -/
theorem determine_trend_matches_spec (l : List PriceObs) :
    determine_trend l = trendSpec (l.map (·.price)) := by
  cases l with
  | nil => rfl
  | cons p ps =>
    simp only [determine_trend, trendSpec, List.map_cons]
    exact classify_congr _ _ _ _ _
      (variation_iff _ _ _ (listMin_le_listMax p.price (ps.map (·.price))))

lemma strData_append (a b : String) : (a ++ b).data = a.data ++ b.data := by
  cases a; cases b; rfl

lemma mockCard_id_ne (name : String) (sn num : Option String) :
    (mockCard name sn num).id.getD "" ≠ "" := by
  show mockSetPref sn ++ "-" ++ mockNumTok num ≠ ""
  intro heq
  have hd := congrArg String.data heq
  rw [strData_append, strData_append] at hd
  have hdash : ("-" : String).data = ['-'] := rfl
  rw [hdash] at hd
  simp at hd

lemma find?_first {α : Type} (p : α → Bool) (l : List α) :
    (l.find? p = none ∧ ∀ x ∈ l, p x = false) ∨
    (∃ pre c post, l = pre ++ c :: post ∧ p c = true ∧
      (∀ x ∈ pre, p x = false) ∧ l.find? p = some c) := by
  induction l with
  | nil => left; exact ⟨rfl, by simp⟩
  | cons h t ih =>
    by_cases hp : p h = true
    · right
      exact ⟨[], h, t, rfl, hp, by simp, List.find?_cons_of_pos t hp⟩
    · have hpf : p h = false := by simpa using hp
      rcases ih with ⟨hn, hall⟩ | ⟨pre, c, post, heq, hc, hpre, hfind⟩
      · left
        refine ⟨?_, ?_⟩
        · rw [List.find?_cons_of_neg t (by simp [hpf]), hn]
        · intro x hx
          rcases List.mem_cons.mp hx with rfl | hx'
          · exact hpf
          · exact hall x hx'
      · right
        refine ⟨h :: pre, c, post, by rw [heq]; rfl, hc, ?_, ?_⟩
        · intro x hx
          rcases List.mem_cons.mp hx with rfl | hx'
          · exact hpf
          · exact hpre x hx'
        · rw [List.find?_cons_of_neg t (by simp [hpf]), hfind]

/-- C1: the resolver is total (this embedding returns a `CardDetails`
on every path, modelling "never raises for not found"); whenever the
catalog's candidates carry non-empty ids, the returned record's id is
non-empty on every path; and a transport error or an empty candidate
list degrades to the synthetic `mockCard` record instead of failing. -/
theorem resolver_nonempty_id_and_degrades (name : String)
    (sn num : Option String) (cat : Except Unit (List RawCard))
    (h : idsOK cat) :
    (get_card_details name sn num cat).id.getD "" ≠ "" ∧
    (cat = .error () → get_card_details name sn num cat = mockCard name sn num) ∧
    (cat = .ok [] → get_card_details name sn num cat = mockCard name sn num) := by
  rcases cat with e | cards
  · exact ⟨mockCard_id_ne name sn num, fun _ => rfl, fun h' => by simp at h'⟩
  · rcases cards with _ | ⟨c0, rest⟩
    · exact ⟨mockCard_id_ne name sn num, fun h' => by simp at h', fun _ => rfl⟩
    · refine ⟨?_, fun h' => by simp at h', fun h' => by simp at h'⟩
      show (match (c0 :: rest).find? (matchesQuery sn num) with
        | some c => toDictMatched c
        | none => toDictFirst c0).id.getD "" ≠ ""
      rcases hf : (c0 :: rest).find? (matchesQuery sn num) with _ | c
      · exact h c0 (List.mem_cons_self c0 rest)
      · exact h c (List.mem_of_find?_eq_some hf)

/-- C1 witness: at a concrete input whose single candidate has a
non-empty id, the hypotheses hold and the resolved id is non-empty. -/
theorem resolver_nonempty_id_and_degrades_witness :
    (get_card_details "Pikachu" (some "Base Set") (some "58/102")
      (.error ())).id.getD "" ≠ "" :=
  (resolver_nonempty_id_and_degrades "Pikachu" (some "Base Set")
    (some "58/102") (.error ()) trivial).1

/-- C6 counterexample: the claim says the synthetic id ends with the
*normalized* (trimmed) number token; with `number = "58 /102"` the
normalized token is `"58"`, but the code builds the id from the
untrimmed substring before `"/"`, yielding `"base-58 "`, which is not
the prefix concatenated with `"58"` (with or without the separator)
and does not end with `"58"`. -/
theorem degrade_id_untrimmed_counterexample :
    (get_card_details "Pikachu" (some "Base Set") (some "58 /102")
      (.error ())).id = some "base-58 " ∧
    normalizeNumber "58 /102" = "58" ∧
    ("base-58 " : String) ≠ "base" ++ "58" ∧
    ("base-58 " : String) ≠ "base" ++ "-" ++ "58" ∧
    isPref "58".data.reverse "base-58 ".data.reverse = false := by
  exact ⟨by decide, by decide, by decide, by decide, by decide⟩

/-- C6 (amended): on the degrade path (transport error or empty
candidate list) the resolver returns the synthetic record, whose id is
the first 4 characters of the lowercased, space-stripped set name (or
`"unknown"` if absent), a `"-"` separator, and the untrimmed substring
of the number before any `"/"` (or `"001"` if absent); rarity is
`"Common"` and the image URL is empty. -/
theorem degrade_record_structure (name : String) (sn num : Option String)
    (cat : Except Unit (List RawCard)) (h : cat = .error () ∨ cat = .ok []) :
    get_card_details name sn num cat = mockCard name sn num ∧
    (get_card_details name sn num cat).id =
      some ((if strTruthy sn then takeStr 4 (stripSpaces (lowerStr (sn.getD "")))
          else "unknown") ++ "-" ++
        (if strTruthy num then beforeSlash (num.getD "") else "001")) ∧
    (get_card_details name sn num cat).rarity = some "Common" ∧
    (get_card_details name sn num cat).image_url = none := by
  rcases h with rfl | rfl
  · exact ⟨rfl, rfl, rfl, rfl⟩
  · exact ⟨rfl, rfl, rfl, rfl⟩

/-- C6 witness: `resolve("Pikachu", "Base Set", "58/102")` with an
unreachable catalog yields the id `"base-58"`, which starts with
`"base"` and ends with `"58"`. -/
theorem degrade_record_structure_witness :
    (get_card_details "Pikachu" (some "Base Set") (some "58/102")
      (.error ())).id = some "base-58" ∧
    isPref "base".data "base-58".data = true ∧
    isPref "58".data.reverse "base-58".data.reverse = true := by
  have h := degrade_record_structure "Pikachu" (some "Base Set")
    (some "58/102") (.error ()) (Or.inl rfl)
  refine ⟨?_, by decide, by decide⟩
  rw [h.2.1]
  decide

/-- C7: on a non-empty candidate list the resolver selects the first
candidate (in catalog order) passing both the case-insensitive
set-substring check and the number-substring check (each skipped when
the corresponding input is absent), and falls back to the first
candidate in catalog order when no candidate passes. -/
theorem selection_first_match (name : String) (sn num : Option String)
    (c0 : RawCard) (cs : List RawCard) :
    (∃ pre c post, c0 :: cs = pre ++ c :: post ∧
      matchesQuery sn num c = true ∧
      (∀ c' ∈ pre, matchesQuery sn num c' = false) ∧
      get_card_details name sn num (.ok (c0 :: cs)) = toDictMatched c) ∨
    ((∀ c ∈ c0 :: cs, matchesQuery sn num c = false) ∧
      get_card_details name sn num (.ok (c0 :: cs)) = toDictFirst c0) := by
  rcases find?_first (matchesQuery sn num) (c0 :: cs) with
    ⟨hn, hall⟩ | ⟨pre, c, post, heq, hc, hpre, hfind⟩
  · right
    refine ⟨hall, ?_⟩
    show (match (c0 :: cs).find? (matchesQuery sn num) with
      | some c => toDictMatched c
      | none => toDictFirst c0) = toDictFirst c0
    rw [hn]
  · left
    refine ⟨pre, c, post, heq, hc, hpre, ?_⟩
    show (match (c0 :: cs).find? (matchesQuery sn num) with
      | some c => toDictMatched c
      | none => toDictFirst c0) = toDictMatched c
    rw [hfind]

/-- C8: `"25/102"` and `"25"` normalize to the same bare token, match
identically, and make the resolver select the same candidate on every
non-empty candidate list. -/
theorem number_normalization_equiv :
    normalizeNumber "25/102" = normalizeNumber "25" ∧
    (∀ (sn : Option String) (cards : List RawCard),
      cards.find? (matchesQuery sn (some "25/102")) =
        cards.find? (matchesQuery sn (some "25"))) ∧
    (∀ (name : String) (sn : Option String) (c0 : RawCard) (cs : List RawCard),
      get_card_details name sn (some "25/102") (.ok (c0 :: cs)) =
        get_card_details name sn (some "25") (.ok (c0 :: cs))) := by
  have hfun : ∀ sn : Option String,
      matchesQuery sn (some "25/102") = matchesQuery sn (some "25") := by
    intro sn
    funext c
    simp only [matchesQuery, Option.getD_some]
    rw [show strTruthy (some "25/102") = true from by decide,
      show strTruthy (some "25") = true from by decide,
      show normalizeNumber "25/102" = "25" from by decide,
      show normalizeNumber "25" = "25" from by decide]
  refine ⟨by decide, fun sn cards => by rw [hfun sn], fun name sn c0 cs => ?_⟩
  show (match (c0 :: cs).find? (matchesQuery sn (some "25/102")) with
    | some c => toDictMatched c
    | none => toDictFirst c0) =
    (match (c0 :: cs).find? (matchesQuery sn (some "25")) with
    | some c => toDictMatched c
    | none => toDictFirst c0)
  rw [hfun sn]

lemma round2_eval (q : ℚ) (z : ℤ) (h1 : (z : ℚ) ≤ q * 100 + 1 / 2)
    (h2 : q * 100 + 1 / 2 < z + 1) : round2 q = (z : ℚ) / 100 := by
  rw [round2, floorQ_eq, Int.floor_eq_iff.mpr ⟨h1, h2⟩]

lemma round2_pos (m : ℚ) (h : 1 / 200 ≤ m) : 0 < round2 m := by
  rw [round2, floorQ_eq]
  have h1 : (1 : ℤ) ≤ Int.floor (m * 100 + 1 / 2) := by
    rw [Int.le_floor]
    push_cast
    linarith
  have h2 : (1 : ℚ) ≤ ((Int.floor (m * 100 + 1 / 2) : ℤ) : ℚ) := by
    exact_mod_cast h1
  exact div_pos (by linarith) (by norm_num)

lemma mem_variantObs {cond url : String} {v : Option TcgVariant} {o : PriceObs}
    (h : o ∈ variantObs cond url v) :
    ∃ m : ℚ, v = some ⟨some m⟩ ∧ m ≠ 0 ∧
      o = ⟨"TCGPlayer", round2 m, "USD", cond, url, true, "TCGPlayer Market"⟩ := by
  rcases v with _ | ⟨mv⟩
  · simp [variantObs] at h
  · rcases mv with _ | m
    · simp [variantObs] at h
    · by_cases hz : m = 0
      · simp [variantObs, hz] at h
      · refine ⟨m, rfl, hz, ?_⟩
        simpa [variantObs, hz] using h

lemma mem_marketVals {v : Option TcgVariant} {m : ℚ}
    (hv : v = some ⟨some m⟩) (hz : m ≠ 0) : m ∈ marketVals v := by
  subst hv
  simp [marketVals, hz]

lemma mem_extract {cd : CardDetails} {t : TcgData} {pr : TcgPrices}
    {o : PriceObs} (h1 : cd.tcgplayer = some t) (h2 : t.prices = some pr)
    (h : o ∈ extract_tcgplayer_prices cd) :
    o.currency = "USD" ∧ o.in_stock = true ∧ o.source = "TCGPlayer" ∧
    o.url = strOr t.url tcgDefaultUrl ∧
    ∃ m ∈ cdMarkets cd, o.price = round2 m := by
  simp only [extract_tcgplayer_prices, h1, h2] at h
  have hcd : cdMarkets cd = marketVals pr.normal ++ marketVals pr.holofoil ++
      marketVals pr.reverseHolofoil ++ marketVals pr.firstEdition := by
    simp only [cdMarkets, h1, h2]
  simp only [List.mem_append] at h
  rcases h with ((ha | hb) | hc) | hd
  · rcases mem_variantObs ha with ⟨m, hv, hz, rfl⟩
    exact ⟨rfl, rfl, rfl, rfl, m, by rw [hcd]; simp [mem_marketVals hv hz], rfl⟩
  · rcases mem_variantObs hb with ⟨m, hv, hz, rfl⟩
    exact ⟨rfl, rfl, rfl, rfl, m, by rw [hcd]; simp [mem_marketVals hv hz], rfl⟩
  · rcases mem_variantObs hc with ⟨m, hv, hz, rfl⟩
    exact ⟨rfl, rfl, rfl, rfl, m, by rw [hcd]; simp [mem_marketVals hv hz], rfl⟩
  · rcases mem_variantObs hd with ⟨m, hv, hz, rfl⟩
    exact ⟨rfl, rfl, rfl, rfl, m, by rw [hcd]; simp [mem_marketVals hv hz], rfl⟩

/-- A card-details record with every optional field absent, used as a
concrete fixture. -/
def cdNone : CardDetails :=
  ⟨none, none, none, none, none, none, none, none, none, none, none, [],
    none, none, none⟩

/-- C9: on the adapter path (no direct catalog pricing contributed),
the report's observation list is the concatenation of the three
adapters' results in invocation order — primary marketplace, auction
marketplace, regional marketplace — each adapter's own internal order
preserved by the concatenation. -/
theorem adapter_path_concatenation (name _id set : String)
    (cd : Option CardDetails) (b1 b2 b3 : Except Unit ℚ) (now : String)
    (h : directPrices cd = []) :
    (get_prices name _id set cd b1 b2 b3 now).prices =
      get_tcgplayer_prices name b1 ++ get_ebay_prices name set b2 ++
        get_cardmarket_prices name b3 := by
  simp [get_prices, h]

/-- C9 witness: with no card details and all three adapters
succeeding, the observations are the three adapters' lists in order. -/
theorem adapter_path_concatenation_witness :
    (get_prices "Pikachu" "x" "Base" none (.ok 10) (.ok 20) (.ok 30) "t").prices =
      get_tcgplayer_prices "Pikachu" (.ok 10) ++
        get_ebay_prices "Pikachu" "Base" (.ok 20) ++
        get_cardmarket_prices "Pikachu" (.ok 30) :=
  adapter_path_concatenation "Pikachu" "x" "Base" none (.ok 10) (.ok 20)
    (.ok 30) "t" rfl

/-- C2: the aggregator is total (this embedding returns a report on
every path); on the adapter path, a failing adapter contributes zero
observations while the other adapters' observations are still
returned, with `total_sources` counting only successful contributions;
and when every adapter fails the result is the valid empty report with
no observations, no market price, trend `"unknown"` and source count
`0`. -/
theorem aggregate_survives_adapter_failures (name _id set : String)
    (cd : Option CardDetails) (b1 b2 b3 : Except Unit ℚ) (now : String)
    (h : directPrices cd = []) :
    ((get_prices name _id set cd (.error ()) b2 b3 now).prices =
      get_ebay_prices name set b2 ++ get_cardmarket_prices name b3) ∧
    ((get_prices name _id set cd (.error ()) b2 b3 now).total_sources =
      (get_ebay_prices name set b2).length +
        (get_cardmarket_prices name b3).length) ∧
    ((get_prices name _id set cd b1 (.error ()) b3 now).prices =
      get_tcgplayer_prices name b1 ++ get_cardmarket_prices name b3) ∧
    ((get_prices name _id set cd b1 (.error ()) b3 now).total_sources =
      (get_tcgplayer_prices name b1).length +
        (get_cardmarket_prices name b3).length) ∧
    ((get_prices name _id set cd b1 b2 (.error ()) now).prices =
      get_tcgplayer_prices name b1 ++ get_ebay_prices name set b2) ∧
    ((get_prices name _id set cd b1 b2 (.error ()) now).total_sources =
      (get_tcgplayer_prices name b1).length +
        (get_ebay_prices name set b2).length) ∧
    (get_prices name _id set cd (.error ()) (.error ()) (.error ()) now =
      ⟨[], none, "unknown", now, 0⟩) := by
  refine ⟨?_, ?_, ?_, ?_, ?_, ?_, ?_⟩ <;>
    simp [get_prices, h, get_tcgplayer_prices, get_ebay_prices,
      get_cardmarket_prices, determine_trend]

/-- C2 witness: with the primary adapter failing the other two
adapters' observations are returned, and with all three failing the
empty `unknown` report is returned. -/
theorem aggregate_survives_adapter_failures_witness :
    ((get_prices "Pikachu" "x" "Base" none (.error ()) (.ok 10) (.ok 20) "t").prices =
      get_ebay_prices "Pikachu" "Base" (.ok 10) ++
        get_cardmarket_prices "Pikachu" (.ok 20)) ∧
    (get_prices "Pikachu" "x" "Base" none (.error ()) (.error ()) (.error ()) "t" =
      ⟨[], none, "unknown", "t", 0⟩) :=
  ⟨(aggregate_survives_adapter_failures "Pikachu" "x" "Base" none (.error ())
      (.ok 10) (.ok 20) "t" rfl).1,
    (aggregate_survives_adapter_failures "Pikachu" "x" "Base" none (.error ())
      (.ok 10) (.ok 20) "t" rfl).2.2.2.2.2.2⟩

/-- C10: every observation any aggregation path can produce — direct
catalog extraction or any of the three adapters — has currency `"USD"`
and `in_stock = true`. -/
theorem observations_usd_instock (cd : CardDetails) (name set : String)
    (b1 b2 b3 : Except Unit ℚ) (o : PriceObs)
    (h : o ∈ extract_tcgplayer_prices cd ∨ o ∈ get_tcgplayer_prices name b1 ∨
      o ∈ get_ebay_prices name set b2 ∨ o ∈ get_cardmarket_prices name b3) :
    o.currency = "USD" ∧ o.in_stock = true := by
  rcases h with h | h | h | h
  · rcases hcd : cd.tcgplayer with _ | t
    · simp only [extract_tcgplayer_prices, hcd] at h
      simp at h
    · rcases hpr : t.prices with _ | pr
      · simp only [extract_tcgplayer_prices, hcd, hpr] at h
        simp at h
      · have := mem_extract hcd hpr h
        exact ⟨this.1, this.2.1⟩
  · rcases b1 with e | b
    · simp [get_tcgplayer_prices] at h
    · simp [get_tcgplayer_prices] at h
      rcases h with rfl | rfl
      · exact ⟨rfl, rfl⟩
      · exact ⟨rfl, rfl⟩
  · rcases b2 with e | b
    · simp [get_ebay_prices] at h
    · simp [get_ebay_prices] at h
      rcases h with rfl | rfl
      · exact ⟨rfl, rfl⟩
      · exact ⟨rfl, rfl⟩
  · rcases b3 with e | b
    · simp [get_cardmarket_prices] at h
    · simp [get_cardmarket_prices] at h
      subst h
      exact ⟨rfl, rfl⟩

/-- C10 witness: the regional-marketplace observation at base price 6
has currency `"USD"` and is in stock. -/
theorem observations_usd_instock_witness :
    (⟨"Cardmarket", round2 6, "USD", "Near Mint",
      "https://www.cardmarket.com/en/Pokemon/Products/Search?searchString=" ++
        plusForSpaces "X", true, "Cardmarket Sellers"⟩ : PriceObs).currency =
      "USD" ∧
    (⟨"Cardmarket", round2 6, "USD", "Near Mint",
      "https://www.cardmarket.com/en/Pokemon/Products/Search?searchString=" ++
        plusForSpaces "X", true, "Cardmarket Sellers"⟩ : PriceObs).in_stock =
      true :=
  observations_usd_instock cdNone "X" "S" (.error ()) (.error ()) (.ok 6) _
    (Or.inr (Or.inr (Or.inr (by simp [get_cardmarket_prices]))))

lemma variantObs_length (cond url : String) (v : Option TcgVariant) :
    (variantObs cond url v).length = if isPopulated v then 1 else 0 := by
  rcases v with _ | ⟨mv⟩
  · rfl
  · rcases mv with _ | m
    · rfl
    · by_cases hz : m = 0
      · simp [variantObs, isPopulated, hz]
      · simp [variantObs, isPopulated, hz]

/-- C5: with direct catalog pricing attached, extraction yields the
four variant blocks in order; its length is the number of populated
variants (exactly one observation per populated variant); every
extracted observation is a `"TCGPlayer"` observation with currency
`"USD"`, `in_stock = true` and the catalog's listing URL; a variant
that is absent, has no market value, or a zero market value produces
zero observations, and a populated one exactly the single labelled
observation; and when the record's `tcgplayer_url` is truthy and
extraction is non-empty, the aggregated report's observations are
exactly the extraction. -/
theorem direct_extraction_per_variant (cd : CardDetails) (t : TcgData)
    (pr : TcgPrices) (h1 : cd.tcgplayer = some t) (h2 : t.prices = some pr) :
    (extract_tcgplayer_prices cd =
      variantObs "Near Mint" (strOr t.url tcgDefaultUrl) pr.normal ++
      variantObs "Near Mint (Holofoil)" (strOr t.url tcgDefaultUrl) pr.holofoil ++
      variantObs "Near Mint (Reverse Holo)" (strOr t.url tcgDefaultUrl)
        pr.reverseHolofoil ++
      variantObs "Near Mint (1st Edition)" (strOr t.url tcgDefaultUrl)
        pr.firstEdition) ∧
    ((extract_tcgplayer_prices cd).length =
      [pr.normal, pr.holofoil, pr.reverseHolofoil, pr.firstEdition].countP
        isPopulated) ∧
    (∀ o ∈ extract_tcgplayer_prices cd,
      o.currency = "USD" ∧ o.in_stock = true ∧
      o.url = strOr t.url tcgDefaultUrl ∧ o.source = "TCGPlayer") ∧
    (∀ (cond url : String) (v : Option TcgVariant),
      (isPopulated v = true →
        ∃ m : ℚ, v = some ⟨some m⟩ ∧ m ≠ 0 ∧
          variantObs cond url v =
            [⟨"TCGPlayer", round2 m, "USD", cond, url, true,
              "TCGPlayer Market"⟩]) ∧
      (isPopulated v = false → variantObs cond url v = [])) ∧
    (∀ (name _id sname now : String) (b1 b2 b3 : Except Unit ℚ),
      strTruthy cd.tcgplayer_url = true →
      extract_tcgplayer_prices cd ≠ [] →
      (get_prices name _id sname (some cd) b1 b2 b3 now).prices =
        extract_tcgplayer_prices cd) := by
  have hext : extract_tcgplayer_prices cd =
      variantObs "Near Mint" (strOr t.url tcgDefaultUrl) pr.normal ++
      variantObs "Near Mint (Holofoil)" (strOr t.url tcgDefaultUrl) pr.holofoil ++
      variantObs "Near Mint (Reverse Holo)" (strOr t.url tcgDefaultUrl)
        pr.reverseHolofoil ++
      variantObs "Near Mint (1st Edition)" (strOr t.url tcgDefaultUrl)
        pr.firstEdition := by
    simp only [extract_tcgplayer_prices, h1, h2]
  refine ⟨hext, ?_, ?_, ?_, ?_⟩
  · rw [hext]
    cases h4 : isPopulated pr.normal <;> cases h5 : isPopulated pr.holofoil <;>
      cases h6 : isPopulated pr.reverseHolofoil <;>
      cases h7 : isPopulated pr.firstEdition <;>
      simp [List.length_append, variantObs_length, List.countP_cons,
        List.countP_nil, h4, h5, h6, h7]
  · intro o ho
    have h := mem_extract h1 h2 ho
    exact ⟨h.1, h.2.1, h.2.2.2.1, h.2.2.1⟩
  · intro cond url v
    constructor
    · intro hp
      rcases v with _ | ⟨mv⟩
      · simp [isPopulated] at hp
      · rcases mv with _ | m
        · simp [isPopulated] at hp
        · have hz : m ≠ 0 := by simpa [isPopulated] using hp
          exact ⟨m, rfl, hz, by simp [variantObs, hz]⟩
    · intro hp
      rcases v with _ | ⟨mv⟩
      · rfl
      · rcases mv with _ | m
        · rfl
        · have hz : m = 0 := by simpa [isPopulated] using hp
          simp [variantObs, hz]
  · intro name _id sname now b1 b2 b3 hurl hne
    have hdir : directPrices (some cd) = extract_tcgplayer_prices cd := by
      simp [directPrices, hurl]
    have hne' : (extract_tcgplayer_prices cd).isEmpty = false := by
      rcases hx : extract_tcgplayer_prices cd with _ | ⟨a, l⟩
      · exact absurd hx hne
      · rfl
    simp [get_prices, hdir, hne']

/-- A card record exposing only a holofoil market value of `12.34`:
the direct-extraction fixture of the spec's example. -/
def cdHolo : CardDetails :=
  { cdNone with
    tcgplayer_url := some "https://ex"
    tcgplayer := some ⟨some "https://ex",
      some ⟨none, some ⟨some (1234 / 100)⟩, none, none⟩⟩ }

/-- C5 witness: the holofoil-only fixture yields exactly one
observation, with price `12.34` (which `round2` leaves unchanged), the
holofoil condition label and the catalog's URL, and the aggregated
report returns exactly that extraction. -/
theorem direct_extraction_per_variant_witness :
    extract_tcgplayer_prices cdHolo =
      [⟨"TCGPlayer", round2 (1234 / 100), "USD", "Near Mint (Holofoil)",
        "https://ex", true, "TCGPlayer Market"⟩] ∧
    round2 (1234 / 100) = 1234 / 100 ∧
    (get_prices "P" "x" "S" (some cdHolo) (.error ()) (.error ()) (.error ())
      "t").prices = extract_tcgplayer_prices cdHolo := by
  have hz : ((1234 : ℚ) / 100) ≠ 0 := by norm_num
  have h := direct_extraction_per_variant cdHolo
    ⟨some "https://ex", some ⟨none, some ⟨some (1234 / 100)⟩, none, none⟩⟩
    ⟨none, some ⟨some (1234 / 100)⟩, none, none⟩ rfl rfl
  have hext : extract_tcgplayer_prices cdHolo =
      [⟨"TCGPlayer", round2 (1234 / 100), "USD", "Near Mint (Holofoil)",
        "https://ex", true, "TCGPlayer Market"⟩] := by
    rw [h.1]
    simp [variantObs, hz, strOr]
  refine ⟨hext, ?_, h.2.2.2.2 "P" "x" "S" "t" (.error ()) (.error ())
    (.error ()) (by decide) (by rw [hext]; simp)⟩
  have heval := round2_eval (1234 / 100) 1234 (by norm_num) (by norm_num)
  rw [heval]
  norm_num

lemma get_prices_prices (name _id sname : String) (cd : Option CardDetails)
    (b1 b2 b3 : Except Unit ℚ) (now : String) :
    (get_prices name _id sname cd b1 b2 b3 now).prices =
      if (directPrices cd).isEmpty then
        get_tcgplayer_prices name b1 ++ get_ebay_prices name sname b2 ++
          get_cardmarket_prices name b3
      else directPrices cd := rfl

lemma get_prices_market (name _id sname : String) (cd : Option CardDetails)
    (b1 b2 b3 : Except Unit ℚ) (now : String) :
    (get_prices name _id sname cd b1 b2 b3 now).market_price =
      if (get_prices name _id sname cd b1 b2 b3 now).prices.isEmpty then none
      else some (round2
        (((get_prices name _id sname cd b1 b2 b3 now).prices.map (·.price)).sum /
          ((get_prices name _id sname cd b1 b2 b3 now).prices.length : ℚ))) := rfl

lemma get_prices_total (name _id sname : String) (cd : Option CardDetails)
    (b1 b2 b3 : Except Unit ℚ) (now : String) :
    (get_prices name _id sname cd b1 b2 b3 now).total_sources =
      (get_prices name _id sname cd b1 b2 b3 now).prices.length := rfl

/-- C4 (amended): for every aggregated report, `market_price` is
absent iff there are no observations; when observations exist,
`market_price` is the arithmetic mean of the observation prices
rounded to 2 decimals; `total_sources` equals the number of
observations; and every observation's price is positive provided each
populated catalog market value is at least `0.005` (a smaller positive
value rounds to a zero price) and the adapters' base prices lie in
their generators' ranges. -/
theorem report_invariants (name _id sname now : String)
    (cd : Option CardDetails) (b1 b2 b3 : Except Unit ℚ)
    (hm : ∀ m ∈ optMarkets cd, 1 / 200 ≤ m)
    (hb1 : baseGE 5 b1) (hb2 : baseGE 8 b2) (hb3 : baseGE 6 b3) :
    ((get_prices name _id sname cd b1 b2 b3 now).market_price = none ↔
      (get_prices name _id sname cd b1 b2 b3 now).prices = []) ∧
    ((get_prices name _id sname cd b1 b2 b3 now).prices ≠ [] →
      (get_prices name _id sname cd b1 b2 b3 now).market_price =
        some (round2
          (((get_prices name _id sname cd b1 b2 b3 now).prices.map
              (·.price)).sum /
            ((get_prices name _id sname cd b1 b2 b3 now).prices.length : ℚ)))) ∧
    ((get_prices name _id sname cd b1 b2 b3 now).total_sources =
      (get_prices name _id sname cd b1 b2 b3 now).prices.length) ∧
    (∀ o ∈ (get_prices name _id sname cd b1 b2 b3 now).prices, 0 < o.price) := by
  refine ⟨?_, ?_, get_prices_total name _id sname cd b1 b2 b3 now, ?_⟩
  · rw [get_prices_market]
    rcases hp : (get_prices name _id sname cd b1 b2 b3 now).prices with _ | ⟨a, l⟩
    · simp
    · simp
  · intro hne
    rw [get_prices_market]
    rcases hp : (get_prices name _id sname cd b1 b2 b3 now).prices with _ | ⟨a, l⟩
    · exact absurd hp hne
    · simp
  · intro o ho
    rw [get_prices_prices] at ho
    by_cases hd : (directPrices cd).isEmpty
    · rw [if_pos hd] at ho
      simp only [List.mem_append] at ho
      rcases ho with (h | h) | h
      · rcases b1 with e | b
        · simp [get_tcgplayer_prices] at h
        · have hb : (5 : ℚ) ≤ b := hb1
          simp [get_tcgplayer_prices] at h
          rcases h with rfl | rfl
          · exact round2_pos b (by linarith)
          · exact round2_pos (b * (85 / 100)) (by linarith)
      · rcases b2 with e | b
        · simp [get_ebay_prices] at h
        · have hb : (8 : ℚ) ≤ b := hb2
          simp [get_ebay_prices] at h
          rcases h with rfl | rfl
          · exact round2_pos b (by linarith)
          · exact round2_pos (b * (115 / 100)) (by linarith)
      · rcases b3 with e | b
        · simp [get_cardmarket_prices] at h
        · have hb : (6 : ℚ) ≤ b := hb3
          simp [get_cardmarket_prices] at h
          subst h
          exact round2_pos b (by linarith)
    · rw [if_neg hd] at ho
      rcases cd with _ | cd'
      · simp [directPrices] at hd
      · simp only [directPrices] at ho hd
        by_cases hu : strTruthy cd'.tcgplayer_url = true
        · rw [if_pos hu] at ho
          rcases hcd : cd'.tcgplayer with _ | t
          · simp only [extract_tcgplayer_prices, hcd] at ho
            simp at ho
          · rcases hpr : t.prices with _ | pr
            · simp only [extract_tcgplayer_prices, hcd, hpr] at ho
              simp at ho
            · obtain ⟨-, -, -, -, m, hmem, hpe⟩ := mem_extract hcd hpr ho
              rw [hpe]
              exact round2_pos m (hm m (by simpa [optMarkets] using hmem))
        · rw [if_neg hu] at ho
          simp at ho

/-- C4 witness: with no card details and the three adapters succeeding
at in-range base prices, the hypotheses hold and the source count and
positivity invariants follow. -/
theorem report_invariants_witness :
    ((get_prices "P" "x" "S" none (.ok 10) (.ok 20) (.ok 15) "t").total_sources =
      (get_prices "P" "x" "S" none (.ok 10) (.ok 20) (.ok 15) "t").prices.length) ∧
    (∀ o ∈ (get_prices "P" "x" "S" none (.ok 10) (.ok 20) (.ok 15) "t").prices,
      0 < o.price) := by
  have h := report_invariants "P" "x" "S" "t" none (.ok 10) (.ok 20) (.ok 15)
    (by simp [optMarkets]) (by norm_num [baseGE]) (by norm_num [baseGE])
    (by norm_num [baseGE])
  exact ⟨h.2.2.1, h.2.2.2⟩

/-- A card record whose only populated market value is `0.001`. -/
def cdTiny : CardDetails :=
  { cdNone with
    tcgplayer_url := some "u"
    tcgplayer := some ⟨some "u",
      some ⟨some ⟨some (1 / 1000)⟩, none, none, none⟩⟩ }

/-- C4 counterexample: the claim's invariant "every observation's
price > 0" fails: a catalog market value of `0.001` is truthy, so it
produces an observation, but rounding to 2 decimals makes its price
exactly `0`. -/
theorem report_price_zero_counterexample :
    ((get_prices "X" "x" "S" (some cdTiny) (.error ()) (.error ()) (.error ())
        "t").prices.map (·.price)) = [0] ∧
    ¬ (∀ o ∈ (get_prices "X" "x" "S" (some cdTiny) (.error ()) (.error ())
        (.error ()) "t").prices, 0 < o.price) := by
  have hz : round2 (1 / 1000) = 0 := by
    have h := round2_eval (1 / 1000) 0 (by norm_num) (by norm_num)
    rw [h]; norm_num
  have hnum : ((1 : ℚ) / 1000) ≠ 0 := by norm_num
  have hext : extract_tcgplayer_prices cdTiny =
      [⟨"TCGPlayer", round2 (1 / 1000), "USD", "Near Mint", "u", true,
        "TCGPlayer Market"⟩] := by
    simp [extract_tcgplayer_prices, cdTiny, cdNone, variantObs, strOr, hnum]
  have hdir : directPrices (some cdTiny) = extract_tcgplayer_prices cdTiny := by
    simp [directPrices, show strTruthy cdTiny.tcgplayer_url = true from by decide]
  have hP : (get_prices "X" "x" "S" (some cdTiny) (.error ()) (.error ())
      (.error ()) "t").prices =
      [⟨"TCGPlayer", round2 (1 / 1000), "USD", "Near Mint", "u", true,
        "TCGPlayer Market"⟩] := by
    rw [get_prices_prices, hdir, hext]
    simp
  constructor
  · rw [hP]
    simp only [List.map_cons, List.map_nil]
    rw [hz]
  · intro hall
    have h := hall ⟨"TCGPlayer", round2 (1 / 1000), "USD", "Near Mint", "u",
      true, "TCGPlayer Market"⟩ (by rw [hP]; exact List.mem_singleton_self _)
    have h' : (0 : ℚ) < round2 (1 / 1000) := h
    rw [hz] at h'
    exact lt_irrefl 0 h'

/-- A concrete catalog candidate from another set, used as a fixture. -/
def cardA : RawCard :=
  ⟨some "xy1-9", some "Pikachu", some ⟨some "Other Set", some "oth", none⟩,
    some "9", none, none, none, none, none, [], none, none⟩

/-- A concrete catalog candidate from Base Set number 58, used as a
fixture. -/
def cardB : RawCard :=
  ⟨some "base1-58", some "Pikachu", some ⟨some "Base Set", some "base1", none⟩,
    some "58", some "Common", none, none, none, none, [], none, none⟩

/-- C7 witness: the selection disjunction instantiated on a concrete
two-candidate list in which only the second candidate matches. -/
theorem selection_first_match_witness :
    (∃ pre c post, cardA :: [cardB] = pre ++ c :: post ∧
      matchesQuery (some "Base") (some "58/102") c = true ∧
      (∀ c' ∈ pre, matchesQuery (some "Base") (some "58/102") c' = false) ∧
      get_card_details "Pikachu" (some "Base") (some "58/102")
        (.ok (cardA :: [cardB])) = toDictMatched c) ∨
    ((∀ c ∈ cardA :: [cardB],
        matchesQuery (some "Base") (some "58/102") c = false) ∧
      get_card_details "Pikachu" (some "Base") (some "58/102")
        (.ok (cardA :: [cardB])) = toDictFirst cardA) :=
  selection_first_match "Pikachu" (some "Base") (some "58/102") cardA [cardB]

end PokePrice
